import Mathlib

/-!
Shallow embedding of the WebSocket connection-identity registry of the
teslo-shop backend: `MessagesWsService` (the `connectedClients` object,
`registerClient`, `removeClient`, `getConnectedClients`,
`getUserFullNameBySocketId`, `checkUserConnection`,
`generateObjetByconectedClients`) and the `MessagesWsGateway` event handlers
(`handleConnection`, `handleDisconnect`, `onMessageFormClient`).

The JavaScript object `connectedClients` is embedded as an association list
`List (String × ClientRecord)` with JS-object semantics: string keys are
unique, enumeration (`Object.keys`) follows insertion order, assignment to an
existing key replaces the value in place, `delete` removes the key.
Side effects (`socket.disconnect()`, `wss.emit(...)`) are embedded as values
returned next to the new state.  Thrown-and-caught exceptions are embedded by
the branch the `catch` lands in; a lookup that would throw returns `none`.
The TypeORM `userRepository.findOneBy({ id })` collaborator is embedded as a
function `String → Option User` (the database state at call time).
-/

namespace TesloShop

/-- The fields of the `User` entity that the messages-ws subsystem reads:
`id`, `fullName` and `isActive` (src/auth/entities/user.entity.ts). -/
structure User where
  id : String
  fullName : String
  isActive : Bool
deriving DecidableEq, Repr

/-- The `'mobile' | 'tablet' | 'desktop'` union type used throughout the
gateway and service. -/
inductive DeviceType where
  | mobile
  | tablet
  | desktop
deriving DecidableEq, Repr

/-- One value of the `ConnectedClients` interface of messages-ws.service.ts:
`{ socket; user; mobile; tablet; desktop }`.  The stored `socket` back
reference is represented by its id (`socketId`), which is all the service
ever uses it for (invoking `disconnect()` on it). -/
structure ClientRecord where
  socketId : String
  user : User
  mobile : Bool
  tablet : Bool
  desktop : Bool
deriving DecidableEq, Repr

/-- The `connectedClients` object: keys in insertion order. -/
abbrev Registry := List (String × ClientRecord)

/-- The `userRepository.findOneBy({ id })` collaborator: the database state
at the time of the call. -/
abbrev UserStore := String → Option User

/-- JS object read `connectedClients[k]`: `none` when the key is absent. -/
def objGet (m : Registry) (k : String) : Option ClientRecord :=
  (m.find? (fun p => decide (p.1 = k))).map Prod.snd

/-- JS object write `connectedClients[k] = v`: replaces in place when the key
exists, otherwise appends (JS objects enumerate string keys in insertion
order and assignment to an existing key keeps its position). -/
def objSet (m : Registry) (k : String) (v : ClientRecord) : Registry :=
  if m.any (fun p => decide (p.1 = k)) then
    m.map (fun p => if p.1 = k then (k, v) else p)
  else
    m ++ [(k, v)]

/-- JS `delete connectedClients[k]`: removes the key, no-op when absent. -/
def objDelete (m : Registry) (k : String) : Registry :=
  m.filter (fun p => !decide (p.1 = k))

/-- JS `Object.keys(connectedClients)`. -/
def objKeys (m : Registry) : List String :=
  m.map Prod.fst

/-- `MessagesWsService.generateObjetByconectedClients`: builds the record
stored in `connectedClients`, with one device flag per the
`deviceType === '...' ? true : false` ternaries. -/
def generateObjetByconectedClients (clientId : String) (user : User)
    (deviceType : DeviceType) : ClientRecord :=
  { socketId := clientId
    user := user
    mobile := if deviceType = DeviceType.mobile then true else false
    tablet := if deviceType = DeviceType.tablet then true else false
    desktop := if deviceType = DeviceType.desktop then true else false }

/-- The device-flag test of `checkUserConnection`:
`(connectedClient.mobile && deviceType === 'mobile') || (tablet && ...) ||
(desktop && ...)`. -/
def matchesDevice (r : ClientRecord) (d : DeviceType) : Bool :=
  (r.mobile && decide (d = DeviceType.mobile)) ||
  (r.tablet && decide (d = DeviceType.tablet)) ||
  (r.desktop && decide (d = DeviceType.desktop))

/-- `MessagesWsService.checkUserConnection`: scans `Object.keys` in order;
at the first record with the same `user.id` and a matching device flag it
calls that record's `socket.disconnect()`, deletes the key and breaks.
Returns the new map together with the list of socket ids disconnected. -/
def checkUserConnection (m : Registry) (userId : String) (d : DeviceType) :
    Registry × List String :=
  match m.find? (fun p => decide (p.2.user.id = userId) && matchesDevice p.2 d) with
  | none => (m, [])
  | some p => (objDelete m p.1, [p.2.socketId])

/-- `MessagesWsService.registerClient`: resolves the user via the repository;
`User not found` and `User is not active` are thrown and caught by the
surrounding try/catch (only logged), leaving the map untouched; otherwise it
builds the record, runs `checkUserConnection` and stores the record under
`client.id`.  Returns the new map and the socket ids disconnected by the
eviction scan. -/
def registerClient (store : UserStore) (m : Registry) (clientId : String)
    (userId : String) (deviceType : DeviceType) : Registry × List String :=
  match store userId with
  | none => (m, [])
  | some user =>
    if user.isActive = false then (m, [])
    else
      let socketObject := generateObjetByconectedClients clientId user deviceType
      let res := checkUserConnection m user.id deviceType
      (objSet res.1 clientId socketObject, res.2)

/-- `MessagesWsService.removeClient`: `delete this.connectedClients[client.id]`. -/
def removeClient (m : Registry) (clientId : String) : Registry :=
  objDelete m clientId

/-- `MessagesWsService.getConnectedClients`: `Object.keys(this.connectedClients)`. -/
def getConnectedClients (m : Registry) : List String :=
  objKeys m

/-- `MessagesWsService.getUserFullNameBySocketId`: reads
`connectedClients[socketId].user.fullName`; on an absent key the property
access throws, embedded as `none`. -/
def getUserFullNameBySocketId (m : Registry) (socketId : String) : Option String :=
  (objGet m socketId).map (fun r => r.user.fullName)

/-- Observable actions taken by `MessagesWsGateway.handleConnection`. -/
inductive GatewayEffect where
  /-- `client.disconnect()` in the gateway's catch branch. -/
  | disconnectSelf : GatewayEffect
  /-- `connectedClient.socket.disconnect()` issued by the eviction scan. -/
  | disconnectSocket : String → GatewayEffect
  /-- `wss.emit('clients-updated', roster)` to every connected transport. -/
  | emitClientsUpdated : List String → GatewayEffect
deriving DecidableEq, Repr

/-- `MessagesWsGateway.handleConnection`: `jwtService.verify(token)` is
embedded by its outcome `tokenPayload : Option String` (`none` = the verify
call threw, `some userId` = payload with that `id`).  On a throw the catch
branch disconnects the client and returns; otherwise `registerClient` runs
(it never throws: its own try/catch swallows errors) and the gateway then
emits `clients-updated` with `getConnectedClients()`. -/
def handleConnection (store : UserStore) (m : Registry) (clientId : String)
    (tokenPayload : Option String) (deviceType : DeviceType) :
    Registry × List GatewayEffect :=
  match tokenPayload with
  | none => (m, [GatewayEffect.disconnectSelf])
  | some userId =>
    let res := registerClient store m clientId userId deviceType
    (res.1, res.2.map GatewayEffect.disconnectSocket
        ++ [GatewayEffect.emitClientsUpdated (getConnectedClients res.1)])

/-- `MessagesWsGateway.handleDisconnect`: removes the client and emits the
updated roster. -/
def handleDisconnect (m : Registry) (clientId : String) :
    Registry × List GatewayEffect :=
  let m2 := removeClient m clientId
  (m2, [GatewayEffect.emitClientsUpdated (getConnectedClients m2)])

/-- The single `wss.emit('message-from-server', { fullName, message })` call
of `onMessageFormClient`, with the transport-level recipient set socket.io
delivers a server-wide emit to (every connected socket). -/
structure ChatEmit where
  recipients : List String
  fullName : String
  message : String
deriving DecidableEq, Repr

/-- The `payload.message || 'no message'` fallback: an absent or empty
(falsy) message becomes the literal `'no message'`. -/
def msgOrDefault (message : Option String) : String :=
  match message with
  | none => "no message"
  | some s => if s = "" then "no message" else s

/-- `MessagesWsGateway.onMessageFormClient` (current version, which resolves
the sender's name through the registry): evaluates
`getUserFullNameBySocketId(client.id)` — a throw there (unregistered sender)
aborts the handler before `wss.emit`, embedded as `none` — then emits one
`message-from-server` event to all connected transports. -/
def onMessageFormClient (m : Registry) (conns : List String) (clientId : String)
    (message : Option String) : Option ChatEmit :=
  match getUserFullNameBySocketId m clientId with
  | none => none
  | some name =>
    some { recipients := conns, fullName := name, message := msgOrDefault message }

/-- A completed registry operation, as driven by the gateway: each `register`
carries the database state its `findOneBy` observed. -/
inductive RegistryOp where
  | register : UserStore → String → String → DeviceType → RegistryOp
  | remove : String → RegistryOp

/-- Applies one completed operation to the `connectedClients` map. -/
def applyOp (m : Registry) (op : RegistryOp) : Registry :=
  match op with
  | RegistryOp.register store clientId userId d => (registerClient store m clientId userId d).1
  | RegistryOp.remove clientId => removeClient m clientId

/-- Runs a sequence of completed operations from the initial empty
`connectedClients = {}` of the service. -/
def runOps (ops : List RegistryOp) : Registry :=
  ops.foldl applyOp []

/-- Two records claim the same device class (their device flags overlap). -/
def sharesDeviceClass (a b : ClientRecord) : Bool :=
  (a.mobile && b.mobile) || (a.tablet && b.tablet) || (a.desktop && b.desktop)

/-- Well-formedness of the `connectedClients` object: keys are unique (as in
any JS object) and no two entries at distinct keys share both `user.id` and a
device class. -/
def RegistryInv (m : Registry) : Prop :=
  (objKeys m).Nodup ∧
  ∀ p ∈ m, ∀ q ∈ m, p.1 ≠ q.1 →
    ¬(p.2.user.id = q.2.user.id ∧ sharesDeviceClass p.2 q.2 = true)

section ObjectLemmas

theorem mem_objDelete {m : Registry} {k : String} {p : String × ClientRecord} :
    p ∈ objDelete m k ↔ p ∈ m ∧ p.1 ≠ k := by
  simp [objDelete, List.mem_filter]

theorem not_key_of_any_eq_false {m : Registry} {k : String}
    (h : m.any (fun p => decide (p.1 = k)) = false) :
    ∀ p ∈ m, p.1 ≠ k := by
  intro p hp
  have := List.any_eq_false.mp h p hp
  simpa using this

theorem mem_of_mem_objSet {m : Registry} {k : String} {v : ClientRecord}
    {p : String × ClientRecord} (h : p ∈ objSet m k v) :
    p = (k, v) ∨ (p ∈ m ∧ p.1 ≠ k) := by
  unfold objSet at h
  split at h
  · rcases List.mem_map.mp h with ⟨a, ha, rfl⟩
    by_cases hk : a.1 = k
    · left; simp [hk]
    · right; simpa [hk] using ha
  · rename_i hany
    have hall := not_key_of_any_eq_false (Bool.eq_false_iff.mpr hany)
    rcases List.mem_append.mp h with h | h
    · exact Or.inr ⟨h, hall p h⟩
    · left; simpa using h

theorem self_mem_objSet (m : Registry) (k : String) (v : ClientRecord) :
    (k, v) ∈ objSet m k v := by
  unfold objSet
  split
  · rename_i hany
    rcases List.any_eq_true.mp hany with ⟨a, ha, hak⟩
    refine List.mem_map.mpr ⟨a, ha, ?_⟩
    simp [of_decide_eq_true hak]
  · exact List.mem_append.mpr (Or.inr (List.mem_singleton.mpr rfl))

theorem find?_replace_of_any (k : String) (v : ClientRecord) :
    ∀ m : Registry, m.any (fun p => decide (p.1 = k)) = true →
      (m.map (fun p => if p.1 = k then (k, v) else p)).find?
          (fun p => decide (p.1 = k)) = some (k, v)
  | [], h => by simp at h
  | a :: t, h => by
    by_cases hk : a.1 = k
    · simp [hk]
    · have ht : t.any (fun p => decide (p.1 = k)) = true := by
        simpa [hk] using h
      simpa [hk] using find?_replace_of_any k v t ht

theorem find?_append_single (k : String) (v : ClientRecord) :
    ∀ m : Registry, (∀ p ∈ m, p.1 ≠ k) →
      (m ++ [(k, v)]).find? (fun p => decide (p.1 = k)) = some (k, v)
  | [], _ => by simp
  | a :: t, h => by
    have hak : ¬(a.1 = k) := h a (List.mem_cons_self a t)
    simpa [hak] using
      find?_append_single k v t (fun p hp => h p (List.mem_cons_of_mem a hp))

theorem find?_objSet_self (m : Registry) (k : String) (v : ClientRecord) :
    (objSet m k v).find? (fun p => decide (p.1 = k)) = some (k, v) := by
  unfold objSet
  split
  · rename_i hany
    exact find?_replace_of_any k v m hany
  · rename_i hany
    exact find?_append_single k v m
      (not_key_of_any_eq_false (Bool.eq_false_iff.mpr hany))

theorem objGet_objSet_self (m : Registry) (k : String) (v : ClientRecord) :
    objGet (objSet m k v) k = some v := by
  simp [objGet, find?_objSet_self]

theorem objKeys_objDelete_sublist (m : Registry) (k : String) :
    (objKeys (objDelete m k)).Sublist (objKeys m) :=
  (List.filter_sublist m).map Prod.fst

theorem nodup_keys_objSet {m : Registry} (k : String) (v : ClientRecord)
    (h : (objKeys m).Nodup) : (objKeys (objSet m k v)).Nodup := by
  unfold objSet
  split
  · have hkeys : objKeys (m.map (fun p => if p.1 = k then (k, v) else p)) = objKeys m := by
      simp only [objKeys, List.map_map]
      apply List.map_congr_left
      intro p _
      by_cases hk : p.1 = k
      · simp [hk]
      · simp [hk]
    rw [hkeys]; exact h
  · rename_i hany
    have hall := not_key_of_any_eq_false (Bool.eq_false_iff.mpr hany)
    have hk : k ∉ objKeys m := by
      intro hkm
      rcases List.mem_map.mp hkm with ⟨p, hp, hpk⟩
      exact hall p hp hpk
    simp only [objKeys, List.map_append, List.map_cons, List.map_nil]
    rw [List.nodup_append]
    refine ⟨h, List.nodup_singleton k, ?_⟩
    intro x hx hxk
    simp only [List.mem_singleton] at hxk
    subst hxk
    exact hk hx

end ObjectLemmas

section DeviceLemmas

theorem matchesDevice_generate (c : String) (u : User) (d d' : DeviceType) :
    matchesDevice (generateObjetByconectedClients c u d) d' = decide (d = d') := by
  cases d <;> cases d' <;> rfl

theorem sharesDeviceClass_generate (c : String) (u : User) (d : DeviceType)
    (r : ClientRecord) :
    sharesDeviceClass (generateObjetByconectedClients c u d) r = matchesDevice r d := by
  cases d <;>
    simp [sharesDeviceClass, generateObjetByconectedClients, matchesDevice, Bool.and_comm]

theorem sharesDeviceClass_comm (a b : ClientRecord) :
    sharesDeviceClass a b = sharesDeviceClass b a := by
  simp only [sharesDeviceClass]
  rw [Bool.and_comm a.mobile b.mobile, Bool.and_comm a.tablet b.tablet,
    Bool.and_comm a.desktop b.desktop]

theorem shares_of_matches {a b : ClientRecord} {d : DeviceType}
    (ha : matchesDevice a d = true) (hb : matchesDevice b d = true) :
    sharesDeviceClass a b = true := by
  cases d <;> simp [matchesDevice] at ha hb <;> simp [sharesDeviceClass, ha, hb]

end DeviceLemmas

section ScanLemmas

theorem checkUserConnection_subset {m : Registry} {userId : String} {d : DeviceType} :
    ∀ p ∈ (checkUserConnection m userId d).1, p ∈ m := by
  intro p hp
  unfold checkUserConnection at hp
  split at hp
  · exact hp
  · exact (mem_objDelete.mp hp).1

theorem nodup_keys_checkUserConnection {m : Registry} (userId : String) (d : DeviceType)
    (h : (objKeys m).Nodup) : (objKeys (checkUserConnection m userId d).1).Nodup := by
  unfold checkUserConnection
  split
  · exact h
  · exact (objKeys_objDelete_sublist m _).nodup h

theorem checkUserConnection_clears {m : Registry} {userId : String} {d : DeviceType}
    (hinv : RegistryInv m) :
    ∀ p ∈ (checkUserConnection m userId d).1,
      ¬(p.2.user.id = userId ∧ matchesDevice p.2 d = true) := by
  intro p hp hmatch
  unfold checkUserConnection at hp
  cases hfind : m.find? (fun q => decide (q.2.user.id = userId) && matchesDevice q.2 d) with
  | none =>
    rw [hfind] at hp
    have := List.find?_eq_none.mp hfind p hp
    simp [hmatch.1, hmatch.2] at this
  | some q =>
    rw [hfind] at hp
    have hqmem : q ∈ m := List.mem_of_find?_eq_some hfind
    have hqpred := List.find?_some hfind
    have hq : q.2.user.id = userId ∧ matchesDevice q.2 d = true := by
      simpa using hqpred
    rcases mem_objDelete.mp hp with ⟨hpm, hpk⟩
    exact hinv.2 p hpm q hqmem hpk
      ⟨hmatch.1.trans hq.1.symm, shares_of_matches hmatch.2 hq.2⟩

end ScanLemmas

section InvariantPreservation

theorem registerClient_inv (store : UserStore) (m : Registry) (clientId userId : String)
    (d : DeviceType) (hinv : RegistryInv m) :
    RegistryInv (registerClient store m clientId userId d).1 := by
  unfold registerClient
  cases hstore : store userId with
  | none => exact hinv
  | some user =>
    by_cases hact : user.isActive = false
    · simp only [hact, if_true]
      exact hinv
    · simp only [hact, if_false]
      have hsub : ∀ p ∈ (checkUserConnection m user.id d).1, p ∈ m :=
        checkUserConnection_subset
      have hnd : (objKeys (checkUserConnection m user.id d).1).Nodup :=
        nodup_keys_checkUserConnection user.id d hinv.1
      have hclear := @checkUserConnection_clears m user.id d hinv
      constructor
      · exact nodup_keys_objSet _ _ hnd
      · intro p hp q hq hne hconf
        rcases mem_of_mem_objSet hp with rfl | ⟨hpm, hpk⟩ <;>
          rcases mem_of_mem_objSet hq with hq' | ⟨hqm, hqk⟩
        · exact hne (by rw [hq'])
        · refine hclear q hqm ⟨hconf.1.symm.trans ?_, ?_⟩
          · simp [generateObjetByconectedClients]
          · rw [← sharesDeviceClass_generate clientId user d q.2]
            exact hconf.2
        · subst hq'
          refine hclear p hpm ⟨hconf.1.trans ?_, ?_⟩
          · simp [generateObjetByconectedClients]
          · rw [← sharesDeviceClass_generate clientId user d p.2,
              sharesDeviceClass_comm]
            exact hconf.2
        · exact hinv.2 p (hsub p hpm) q (hsub q hqm) hne hconf

theorem removeClient_inv (m : Registry) (clientId : String) (hinv : RegistryInv m) :
    RegistryInv (removeClient m clientId) := by
  constructor
  · exact (objKeys_objDelete_sublist m clientId).nodup hinv.1
  · intro p hp q hq hne
    exact hinv.2 p (mem_objDelete.mp hp).1 q (mem_objDelete.mp hq).1 hne

theorem runOps_inv (ops : List RegistryOp) : RegistryInv (runOps ops) := by
  have haux : ∀ (l : List RegistryOp) (m : Registry), RegistryInv m →
      RegistryInv (l.foldl applyOp m) := by
    intro l
    induction l with
    | nil => intro m hm; exact hm
    | cons op t ih =>
      intro m hm
      rw [List.foldl_cons]
      apply ih
      cases op with
      | register store clientId userId d => exact registerClient_inv store m clientId userId d hm
      | remove clientId => exact removeClient_inv m clientId hm
  exact haux ops [] ⟨List.nodup_nil, by intro p hp; cases hp⟩

end InvariantPreservation

section SingletonFilter

theorem find?_of_filter_singleton {α : Type} {p : α → Bool} :
    ∀ {l : List α} {x : α}, l.filter p = [x] → l.find? p = some x := by
  intro l
  induction l with
  | nil => intro x h; simp at h
  | cons a t ih =>
    intro x h
    by_cases hpa : p a
    · rw [List.filter_cons_of_pos hpa] at h
      injection h with h1 h2
      rw [List.find?_cons_of_pos _ hpa, h1]
    · rw [List.filter_cons_of_neg hpa] at h
      rw [List.find?_cons_of_neg _ hpa]
      exact ih h

end SingletonFilter

/-- One registration request as issued by the gateway:
`(client.id, payload.id, deviceType)`. -/
abbrev RegistrationReq := String × String × DeviceType

/-- Runs a sequence of `registerClient` calls (all against the same database
state) from a starting map, keeping only the resulting map. -/
def runRegs (store : UserStore) (m : Registry) (regs : List RegistrationReq) : Registry :=
  regs.foldl (fun acc r => (registerClient store acc r.1 r.2.1 r.2.2).1) m

/-- The entry a successful registration request stores: key `client.id`,
record built by `generateObjetByconectedClients` from the resolved user. -/
def regRecord (store : UserStore) (r : RegistrationReq) : String × ClientRecord :=
  (r.1, generateObjetByconectedClients r.1
    ((store r.2.1).getD { id := r.2.1, fullName := "", isActive := false }) r.2.2)

theorem runRegs_eq (store : UserStore) :
    ∀ (regs : List RegistrationReq) (m : Registry),
      (∀ r ∈ regs, ∃ u, store r.2.1 = some u ∧ u.isActive = true ∧ u.id = r.2.1) →
      (∀ r ∈ regs, r.1 ∉ objKeys m) →
      (regs.map Prod.fst).Nodup →
      (regs.map (fun r => (r.2.1, r.2.2))).Nodup →
      (∀ p ∈ m, ∀ r ∈ regs, ¬(p.2.user.id = r.2.1 ∧ matchesDevice p.2 r.2.2 = true)) →
      runRegs store m regs = m ++ regs.map (regRecord store)
  | [], m, _, _, _, _, _ => by simp [runRegs]
  | r :: rest, m, hres, hfresh, hcids, hpairs, hnoconf => by
    obtain ⟨u, hu, hact, hid⟩ := hres r (List.mem_cons_self r rest)
    have hfind : m.find?
        (fun p => decide (p.2.user.id = u.id) && matchesDevice p.2 r.2.2) = none := by
      apply List.find?_eq_none.mpr
      intro p hp hpred
      have hnc := hnoconf p hp r (List.mem_cons_self r rest)
      simp only [Bool.and_eq_true, decide_eq_true_eq] at hpred
      rw [hid] at hpred
      exact hnc ⟨hpred.1, hpred.2⟩
    have hany : m.any (fun p => decide (p.1 = r.1)) = false := by
      apply List.any_eq_false.mpr
      intro p hp
      simp only [decide_eq_true_eq]
      intro hk
      exact hfresh r (List.mem_cons_self r rest) (hk ▸ List.mem_map_of_mem Prod.fst hp)
    have hstep : (registerClient store m r.1 r.2.1 r.2.2).1 = m ++ [regRecord store r] := by
      unfold registerClient
      rw [hu]
      simp only [hact, Bool.true_eq_false, if_false]
      simp [checkUserConnection, hfind, objSet, hany, regRecord, hu]
    have hcids0 : r.1 ∉ rest.map Prod.fst ∧ (rest.map Prod.fst).Nodup :=
      List.nodup_cons.mp (by simpa using hcids)
    have hpairs0 : (r.2.1, r.2.2) ∉ rest.map (fun r' => (r'.2.1, r'.2.2)) ∧
        (rest.map (fun r' => (r'.2.1, r'.2.2))).Nodup :=
      List.nodup_cons.mp (by simpa using hpairs)
    have hres' : ∀ r' ∈ rest,
        ∃ u', store r'.2.1 = some u' ∧ u'.isActive = true ∧ u'.id = r'.2.1 :=
      fun r' hr' => hres r' (List.mem_cons_of_mem r hr')
    have hfresh' : ∀ r' ∈ rest, r'.1 ∉ objKeys (m ++ [regRecord store r]) := by
      intro r' hr'
      simp only [objKeys, List.map_append, List.mem_append, List.map_cons, List.map_nil,
        List.mem_singleton, regRecord]
      rintro (hmem | hmem)
      · exact hfresh r' (List.mem_cons_of_mem r hr') hmem
      · exact hcids0.1 (hmem ▸ List.mem_map_of_mem Prod.fst hr')
    have hnoconf' : ∀ p ∈ m ++ [regRecord store r], ∀ r' ∈ rest,
        ¬(p.2.user.id = r'.2.1 ∧ matchesDevice p.2 r'.2.2 = true) := by
      intro p hp r' hr' hconf
      rcases List.mem_append.mp hp with hp | hp
      · exact hnoconf p hp r' (List.mem_cons_of_mem r hr') hconf
      · have hpr : p = regRecord store r := List.mem_singleton.mp hp
        subst hpr
        have hgid : (regRecord store r).2.user.id = r.2.1 := by
          simp [regRecord, hu, generateObjetByconectedClients, hid]
        have hgdev : matchesDevice (regRecord store r).2 r'.2.2 =
            decide (r.2.2 = r'.2.2) := by
          simp [regRecord, hu, matchesDevice_generate]
        have h1 : r.2.1 = r'.2.1 := hgid.symm.trans hconf.1
        have h2 : r.2.2 = r'.2.2 := of_decide_eq_true (hgdev ▸ hconf.2)
        apply hpairs0.1
        have hpair : ((r.2.1, r.2.2) : String × DeviceType) = (r'.2.1, r'.2.2) := by
          rw [h1, h2]
        rw [hpair]
        exact List.mem_map_of_mem _ hr'
    calc runRegs store m (r :: rest)
        = runRegs store (m ++ [regRecord store r]) rest := by
          unfold runRegs
          rw [List.foldl_cons, hstep]
      _ = (m ++ [regRecord store r]) ++ rest.map (regRecord store) :=
          runRegs_eq store rest (m ++ [regRecord store r])
            hres' hfresh' hcids0.2 hpairs0.2 hnoconf'
      _ = m ++ (r :: rest).map (regRecord store) := by
          simp [List.map_cons, List.append_assoc]

/-- Modelled from the spec: a later change of the owning identity's display
name in the external user store (the spec's "backing identity's name later
changes"); only the store is touched, never the registry. -/
def setUserFullName (store : UserStore) (userId : String) (newName : String) : UserStore :=
  fun k =>
    if k = userId then (store k).map (fun u => { u with fullName := newName })
    else store k

section WitnessFixtures

/-- Sample active user for concrete witnesses. -/
def wAlice : User := { id := "u1", fullName := "Alice A", isActive := true }

/-- Sample inactive user for concrete witnesses. -/
def wBob : User := { id := "u2", fullName := "Bob B", isActive := false }

/-- Sample database state: `u1` active, `u2` inactive, all other ids absent. -/
def wStore : UserStore := fun u =>
  if u = "u1" then some wAlice else if u = "u2" then some wBob else none

/-- Sample operation history: two desktop registrations for `u1` (the second
evicts the first) followed by a mobile registration for `u1`. -/
def wOps : List RegistryOp :=
  [RegistryOp.register wStore "c1" "u1" DeviceType.desktop,
   RegistryOp.register wStore "c2" "u1" DeviceType.desktop,
   RegistryOp.register wStore "c3" "u1" DeviceType.mobile]

/-- The registry state reached by `wOps`. -/
def wReg : Registry := runOps wOps

end WitnessFixtures

/-- C1: after any completed sequence of register/remove operations from the
empty `connectedClients`, no two entries at distinct keys share both
`user.id` and a device class; `registerClient` re-establishes this by running
`checkUserConnection` (eviction) before inserting. -/
theorem registry_unique_user_device (ops : List RegistryOp) :
    ∀ p ∈ runOps ops, ∀ q ∈ runOps ops, p.1 ≠ q.1 →
      ¬(p.2.user.id = q.2.user.id ∧ sharesDeviceClass p.2 q.2 = true) :=
  (runOps_inv ops).2

/-- Witness for C1 at the concrete history `wOps`: the two surviving records
`c2` (desktop) and `c3` (mobile) do not conflict. -/
theorem registry_unique_user_device_witness :
    ¬((generateObjetByconectedClients "c2" wAlice DeviceType.desktop).user.id =
        (generateObjetByconectedClients "c3" wAlice DeviceType.mobile).user.id ∧
      sharesDeviceClass (generateObjetByconectedClients "c2" wAlice DeviceType.desktop)
        (generateObjetByconectedClients "c3" wAlice DeviceType.mobile) = true) :=
  registry_unique_user_device wOps
    ("c2", generateObjetByconectedClients "c2" wAlice DeviceType.desktop) (by decide)
    ("c3", generateObjetByconectedClients "c3" wAlice DeviceType.mobile) (by decide)
    (by decide)

/-- C3: when identity resolution fails (`User not found`) or the resolved
identity is inactive (`User is not active`), `registerClient` leaves the
whole mapping exactly as it was (in particular every other client's record)
and creates no record and no disconnect. -/
theorem register_failure_atomic (store : UserStore) (m : Registry)
    (clientId userId : String) (d : DeviceType)
    (h : store userId = none ∨ ∃ u, store userId = some u ∧ u.isActive = false) :
    registerClient store m clientId userId d = (m, []) := by
  rcases h with h | ⟨u, hu, hin⟩
  · simp [registerClient, h]
  · simp [registerClient, hu, hin]

/-- Witness for C3: registering `c9` for the inactive user `u2` leaves the
already-registered `c1` record untouched. -/
theorem register_failure_atomic_witness :
    registerClient wStore
        [("c1", generateObjetByconectedClients "c1" wAlice DeviceType.desktop)]
        "c9" "u2" DeviceType.mobile =
      ([("c1", generateObjetByconectedClients "c1" wAlice DeviceType.desktop)], []) :=
  register_failure_atomic wStore
    [("c1", generateObjetByconectedClients "c1" wAlice DeviceType.desktop)]
    "c9" "u2" DeviceType.mobile (Or.inr ⟨wBob, rfl, rfl⟩)

/-- C4 counterexample: with a valid token whose `id` resolves to no user,
registration fails (no record is created) yet `handleConnection` does not
disconnect the client and does emit the `clients-updated` broadcast — the
service's internal try/catch swallows the failure, so the gateway's catch
branch never runs. -/
theorem gateway_failed_registration_still_broadcasts :
    (handleConnection wStore [] "c1" (some "zz") DeviceType.desktop).1 = [] ∧
    GatewayEffect.disconnectSelf ∉
      (handleConnection wStore [] "c1" (some "zz") DeviceType.desktop).2 ∧
    GatewayEffect.emitClientsUpdated [] ∈
      (handleConnection wStore [] "c1" (some "zz") DeviceType.desktop).2 := by
  decide

/-- C4 (amended): `handleConnection` disconnects the client and suppresses
the broadcast exactly when token verification throws; whenever verification
succeeds, the `clients-updated` roster broadcast is emitted and the gateway
does not disconnect the client, even if registry registration failed
(identity not found or inactive). -/
theorem gateway_connect_effects (store : UserStore) (m : Registry) (clientId : String)
    (d : DeviceType) :
    handleConnection store m clientId none d = (m, [GatewayEffect.disconnectSelf]) ∧
    ∀ userId,
      GatewayEffect.disconnectSelf ∉
        (handleConnection store m clientId (some userId) d).2 ∧
      GatewayEffect.emitClientsUpdated
          (getConnectedClients (handleConnection store m clientId (some userId) d).1) ∈
        (handleConnection store m clientId (some userId) d).2 := by
  refine ⟨rfl, fun userId => ⟨?_, ?_⟩⟩
  · simp [handleConnection]
  · simp [handleConnection]

/-- C5: for a chat payload from a registered sender, `onMessageFormClient`
emits a single `message-from-server` event whose `fullName` is the sender's
registry-cached name and whose `message` is the payload verbatim, addressed
to every connected transport — the sender included. -/
theorem chat_broadcast_semantics (m : Registry) (conns : List String)
    (clientId : String) (r : ClientRecord) (msg : String)
    (hreg : objGet m clientId = some r) (hconn : clientId ∈ conns) (hmsg : msg ≠ "") :
    onMessageFormClient m conns clientId (some msg) =
      some { recipients := conns, fullName := r.user.fullName, message := msg } ∧
    clientId ∈ conns := by
  constructor
  · simp [onMessageFormClient, getUserFullNameBySocketId, hreg, msgOrDefault, hmsg]
  · exact hconn

/-- Witness for C5: sender `c2` (registered in `wReg`) broadcasts `"hi"` to
both connected transports, itself included. -/
theorem chat_broadcast_semantics_witness :
    onMessageFormClient wReg ["c2", "c3"] "c2" (some "hi") =
      some { recipients := ["c2", "c3"], fullName := "Alice A", message := "hi" } ∧
    "c2" ∈ ["c2", "c3"] :=
  chat_broadcast_semantics wReg ["c2", "c3"] "c2"
    (generateObjetByconectedClients "c2" wAlice DeviceType.desktop) "hi"
    (by decide) (by decide) (by decide)

/-- C6: `getUserFullNameBySocketId` returns the cached `user.fullName` of the
record registered under the connection id, and fails (the property access
throws, embedded as `none`) when the id is not registered. -/
theorem lookup_display_name_cases (m : Registry) (clientId : String) :
    (∀ r, objGet m clientId = some r →
      getUserFullNameBySocketId m clientId = some r.user.fullName) ∧
    (objGet m clientId = none → getUserFullNameBySocketId m clientId = none) := by
  constructor
  · intro r h
    simp [getUserFullNameBySocketId, h]
  · intro h
    simp [getUserFullNameBySocketId, h]

/-- Witness for C6 on the concrete state `wReg`: a registered id yields its
cached name, an unknown id fails. -/
theorem lookup_display_name_cases_witness :
    getUserFullNameBySocketId wReg "c2" = some "Alice A" ∧
    getUserFullNameBySocketId wReg "zz" = none :=
  ⟨(lookup_display_name_cases wReg "c2").1
      (generateObjetByconectedClients "c2" wAlice DeviceType.desktop) (by decide),
   (lookup_display_name_cases wReg "zz").2 (by decide)⟩

/-- C8: the display name is a registration-time snapshot: after a successful
registration the registry answers `lookupDisplayName` with the `fullName`
the store held at registration, while the updated store (name changed via
`setUserFullName`) now yields the new name — the registry never re-reads the
store (structurally, `getUserFullNameBySocketId` does not even take the
store as an argument). -/
theorem display_name_snapshot (store : UserStore) (m : Registry)
    (clientId userId newName : String) (d : DeviceType) (u : User)
    (hstore : store userId = some u) (hact : u.isActive = true) :
    getUserFullNameBySocketId (registerClient store m clientId userId d).1 clientId =
      some u.fullName ∧
    setUserFullName store userId newName userId =
      some { u with fullName := newName } := by
  constructor
  · unfold registerClient
    rw [hstore]
    simp only [hact, Bool.true_eq_false, if_false]
    simp [getUserFullNameBySocketId, objGet_objSet_self, generateObjetByconectedClients]
  · simp [setUserFullName, hstore]

/-- Witness for C8: register `c1` for Alice, then rename her in the store;
the registry still answers with the registration-time name. -/
theorem display_name_snapshot_witness :
    getUserFullNameBySocketId (registerClient wStore [] "c1" "u1" DeviceType.desktop).1 "c1" =
      some "Alice A" ∧
    setUserFullName wStore "u1" "Alicia Z" "u1" =
      some { id := "u1", fullName := "Alicia Z", isActive := true } :=
  display_name_snapshot wStore [] "c1" "u1" "Alicia Z" DeviceType.desktop wAlice rfl rfl

/-- C9: `removeClient` on an absent connection id is a no-op (and cannot
fail: it is a total function), and removing twice equals removing once. -/
theorem remove_idempotent (m : Registry) (clientId : String) :
    (clientId ∉ objKeys m → removeClient m clientId = m) ∧
    removeClient (removeClient m clientId) clientId = removeClient m clientId := by
  constructor
  · intro h
    unfold removeClient objDelete
    apply List.filter_eq_self.mpr
    intro p hp
    have hk : p.1 ≠ clientId := fun hk => h (hk ▸ List.mem_map_of_mem Prod.fst hp)
    simp [hk]
  · unfold removeClient objDelete
    induction m with
    | nil => rfl
    | cons a t ih =>
      by_cases hk : a.1 = clientId
      · simp [hk, ih]
      · simp [hk, ih]

/-- Witness for C9: removing the never-registered id `zz` from `wReg` keeps
the state equal to `wReg`. -/
theorem remove_idempotent_witness : removeClient wReg "zz" = wReg :=
  (remove_idempotent wReg "zz").1 (by decide)

/-- C10: the `payload.message || 'no message'` fallback — an absent or empty
message is not rejected but broadcast as the literal `'no message'`, while a
non-empty message is broadcast verbatim. -/
theorem empty_message_fallback (m : Registry) (conns : List String)
    (clientId : String) (r : ClientRecord) (hreg : objGet m clientId = some r) :
    onMessageFormClient m conns clientId none =
      some { recipients := conns, fullName := r.user.fullName, message := "no message" } ∧
    onMessageFormClient m conns clientId (some "") =
      some { recipients := conns, fullName := r.user.fullName, message := "no message" } ∧
    ∀ s, s ≠ "" → onMessageFormClient m conns clientId (some s) =
      some { recipients := conns, fullName := r.user.fullName, message := s } := by
  refine ⟨?_, ?_, ?_⟩
  · simp [onMessageFormClient, getUserFullNameBySocketId, hreg, msgOrDefault]
  · simp [onMessageFormClient, getUserFullNameBySocketId, hreg, msgOrDefault]
  · intro s hs
    simp [onMessageFormClient, getUserFullNameBySocketId, hreg, msgOrDefault, hs]

/-- Witness for C10 on `wReg`: an absent and an empty message both become
`'no message'`, a non-empty one passes through. -/
theorem empty_message_fallback_witness :
    onMessageFormClient wReg ["c2"] "c2" none =
      some { recipients := ["c2"], fullName := "Alice A", message := "no message" } ∧
    onMessageFormClient wReg ["c2"] "c2" (some "") =
      some { recipients := ["c2"], fullName := "Alice A", message := "no message" } ∧
    ∀ s, s ≠ "" → onMessageFormClient wReg ["c2"] "c2" (some s) =
      some { recipients := ["c2"], fullName := "Alice A", message := s } :=
  empty_message_fallback wReg ["c2"] "c2"
    (generateObjetByconectedClients "c2" wAlice DeviceType.desktop) (by decide)

/-- C2: if the mapping holds exactly one record for `(userId, deviceClass)`
and `registerClient` runs for a new connection with the same pair (identity
resolution succeeding), then afterwards the only record for that pair is the
new one, and the old record's `socket.disconnect` was invoked exactly once
(the returned disconnect list is exactly the old record's socket id). -/
theorem eviction_correct (store : UserStore) (m : Registry) (clientId : String)
    (userU : String) (devD : DeviceType) (k0 : String) (r0 : ClientRecord) (u : User)
    (hone : m.filter (fun p => decide (p.2.user.id = userU) && matchesDevice p.2 devD) =
      [(k0, r0)])
    (hstore : store userU = some u) (hid : u.id = userU) (hact : u.isActive = true) :
    (registerClient store m clientId userU devD).2 = [r0.socketId] ∧
    (clientId, generateObjetByconectedClients clientId u devD) ∈
      (registerClient store m clientId userU devD).1 ∧
    ∀ p ∈ (registerClient store m clientId userU devD).1,
      p.2.user.id = userU → matchesDevice p.2 devD = true →
        p = (clientId, generateObjetByconectedClients clientId u devD) := by
  have hfind : m.find?
      (fun p => decide (p.2.user.id = u.id) && matchesDevice p.2 devD) = some (k0, r0) := by
    rw [hid]
    exact find?_of_filter_singleton hone
  have hreg : registerClient store m clientId userU devD =
      (objSet (objDelete m k0) clientId (generateObjetByconectedClients clientId u devD),
        [r0.socketId]) := by
    unfold registerClient
    rw [hstore]
    simp only [hact, Bool.true_eq_false, if_false]
    simp [checkUserConnection, hfind]
  rw [hreg]
  refine ⟨rfl, self_mem_objSet _ _ _, ?_⟩
  intro p hp hpid hpdev
  rcases mem_of_mem_objSet hp with rfl | ⟨hpm, hpk⟩
  · rfl
  · exfalso
    rcases mem_objDelete.mp hpm with ⟨hpm2, hpk0⟩
    have hpf : p ∈ m.filter
        (fun p => decide (p.2.user.id = userU) && matchesDevice p.2 devD) :=
      List.mem_filter.mpr ⟨hpm2, by simp [hpid, hpdev]⟩
    rw [hone] at hpf
    exact hpk0 (by rw [List.mem_singleton.mp hpf])

/-- Witness for C2: `c1` holds the only `(u1, desktop)` record; registering
`c2` for `(u1, desktop)` disconnects exactly socket `c1` and leaves `c2`'s
record as the only `(u1, desktop)` record. -/
theorem eviction_correct_witness :
    (registerClient wStore
        [("c1", generateObjetByconectedClients "c1" wAlice DeviceType.desktop)]
        "c2" "u1" DeviceType.desktop).2 = ["c1"] ∧
    ("c2", generateObjetByconectedClients "c2" wAlice DeviceType.desktop) ∈
      (registerClient wStore
        [("c1", generateObjetByconectedClients "c1" wAlice DeviceType.desktop)]
        "c2" "u1" DeviceType.desktop).1 ∧
    ∀ p ∈ (registerClient wStore
        [("c1", generateObjetByconectedClients "c1" wAlice DeviceType.desktop)]
        "c2" "u1" DeviceType.desktop).1,
      p.2.user.id = "u1" → matchesDevice p.2 DeviceType.desktop = true →
        p = ("c2", generateObjetByconectedClients "c2" wAlice DeviceType.desktop) :=
  eviction_correct wStore
    [("c1", generateObjetByconectedClients "c1" wAlice DeviceType.desktop)]
    "c2" "u1" DeviceType.desktop "c1"
    (generateObjetByconectedClients "c1" wAlice DeviceType.desktop) wAlice
    (by decide) (by decide) rfl rfl

/-- C7: from the empty mapping, after `N` successful registrations with
pairwise distinct connection ids and pairwise distinct (and hence
non-conflicting) `(userId, deviceClass)` pairs, `getConnectedClients`
returns exactly `N` ids, each one the connection id of a prior
registration. -/
theorem roster_completeness (store : UserStore) (regs : List RegistrationReq)
    (hres : ∀ r ∈ regs, ∃ u, store r.2.1 = some u ∧ u.isActive = true ∧ u.id = r.2.1)
    (hcids : (regs.map Prod.fst).Nodup)
    (hpairs : (regs.map (fun r => (r.2.1, r.2.2))).Nodup) :
    (getConnectedClients (runRegs store [] regs)).length = regs.length ∧
    ∀ k ∈ getConnectedClients (runRegs store [] regs), k ∈ regs.map Prod.fst := by
  have h := runRegs_eq store regs [] hres
    (by intro r hr; simp [objKeys]) hcids hpairs (by intro p hp; cases hp)
  rw [h]
  constructor
  · simp [getConnectedClients, objKeys]
  · intro k hk
    simp only [getConnectedClients, objKeys, List.nil_append, List.map_map] at hk
    simpa [Function.comp, regRecord] using hk

/-- Sample registration batch for the C7 witness: two distinct connection
ids, non-conflicting `(userId, deviceClass)` pairs. -/
def wRegs : List RegistrationReq :=
  [("c1", "u1", DeviceType.desktop), ("c3", "u1", DeviceType.mobile)]

/-- Witness for C7 on `wRegs`: both registrations survive and the roster is
exactly their connection ids. -/
theorem roster_completeness_witness :
    (getConnectedClients (runRegs wStore [] wRegs)).length = wRegs.length ∧
    ∀ k ∈ getConnectedClients (runRegs wStore [] wRegs), k ∈ wRegs.map Prod.fst :=
  roster_completeness wStore wRegs
    (by
      intro r hr
      rcases List.mem_cons.mp hr with rfl | hr
      · exact ⟨wAlice, by decide, rfl, rfl⟩
      rcases List.mem_cons.mp hr with rfl | hr
      · exact ⟨wAlice, by decide, rfl, rfl⟩
      · cases hr)
    (by decide) (by decide)

end TesloShop
